import Mathlib

/-!
# Verification of the WorkOS bulk-deletion script (`delete-orgs.js`)

A shallow embedding of the core logic of `delete-orgs.js`:

* JavaScript string/number primitives used by the script (string lexicographic
  comparison as performed by JS `<=`/`>=` on strings, `String#padStart(2,'0')`,
  `String(n)` including the `NaN` case, truthiness-based `||`).
* `matchesDateFilter` / `filterByDate` — the UTC-day date filter.
* `executeWithRateLimit` — retry/backoff wrapper (sleeps and token
  acquisitions are recorded in an explicit trace).
* `TokenBucketRateLimiter` — token-bucket state with lazy refill (JS numbers
  modelled as exact rationals).
* `deleteEntitiesConcurrently` — per-entity outcome bookkeeping (sequential
  fold; each task records exactly one outcome, success or failure), and a
  separate admission-loop model for the `Promise.race`-based concurrency
  bound.
* `parseArguments` / `main` — argument validation and the exit-code decision.
-/

namespace DeleteOrgs

/-! ## JavaScript primitives -/

/-- JS string comparison (`<` on strings) compares code units left to right.
All strings involved here are ASCII, so comparing `Char` codepoints is
faithful.  `jsStrLtList a b` is `a < b`. -/
def jsStrLtList : List Char → List Char → Bool
  | [], [] => false
  | [], _ :: _ => true
  | _ :: _, [] => false
  | a :: as, b :: bs =>
    if a.toNat < b.toNat then true
    else if b.toNat < a.toNat then false
    else jsStrLtList as bs

/-- JS `a <= b` on strings: lexicographic less-or-equal. -/
def jsStrLeList : List Char → List Char → Bool
  | [], _ => true
  | _ :: _, [] => false
  | a :: as, b :: bs =>
    if a.toNat < b.toNat then true
    else if b.toNat < a.toNat then false
    else jsStrLeList as bs

/-- JS `a <= b` on strings. -/
def jsStrLe (a b : String) : Bool := jsStrLeList a.data b.data

/-- JS `a >= b` on strings. -/
def jsStrGe (a b : String) : Bool := jsStrLeList b.data a.data

/-- A JS number that is either an actual (natural) number or `NaN`.
`getUTCFullYear()` and friends return `NaN` on an Invalid Date. -/
abbrev JsNum := Option Nat

/-- JS `String(n)`: stringification of a number; `String(NaN) = "NaN"`. -/
def jsNumToString : JsNum → String
  | some n => toString n
  | none => "NaN"

/-- JS `s.padStart(2, '0')`: left-pad to length 2 with `'0'`.
(`"NaN".padStart(2,'0') = "NaN"` since it is already longer.) -/
def padStart2 (s : String) : String :=
  String.mk (List.replicate (2 - s.data.length) '0') ++ s

/-- JS `a || b` for strings, where `undefined` and `""` are both falsy and are
modelled as `""`. -/
def jsOr (a b : String) : String := if a = "" then b else a

/-! ## Data model: timestamps and entities -/

/-- The UTC components of a *valid* parsed `Date`.  `monthIdx` is what JS
`getUTCMonth()` returns (0-based); the script prints `getUTCMonth() + 1`.
The time-of-day components are carried so that the day-truncation performed
by the script (which reads only year/month/day) is visible in the model. -/
structure Timestamp where
  year : Nat
  monthIdx : Nat
  day : Nat
  hour : Nat
  minute : Nat
  second : Nat
deriving DecidableEq, Repr

/-- The `createdAt` field of a fetched entity, as seen by the script:
missing (or falsy), present but not parseable by `new Date` (Invalid Date),
or parseable to a UTC timestamp. -/
inductive CreatedAt where
  | missing
  | invalid
  | parsed (t : Timestamp)
deriving DecidableEq, Repr

/-- An entity (organization or user) as fetched from the API.  String fields
use `""` for absent/falsy values (JS `undefined` and `""` behave identically
under the `||` and `&&` uses in the script). -/
structure RawEntity where
  id : String
  name : String
  firstName : String
  lastName : String
  email : String
  createdAt : CreatedAt
deriving DecidableEq, Repr

/-- The configured date filter: `mode === 'single'` with one date string, or
`mode === 'range'` with start/end date strings. -/
inductive FilterMode where
  | single (date : String)
  | range (startDate endDate : String)
deriving DecidableEq, Repr

/-! ## `matchesDateFilter` (delete-orgs.js lines 235–247) -/

/-- The `dateStr` computed by `matchesDateFilter`:
`${year}-${month.padStart(2,'0')}-${day.padStart(2,'0')}` where the
components come from `new Date(createdAt)`'s UTC accessors.  On an Invalid
Date every accessor returns `NaN`, `NaN + 1` is `NaN`, and stringification
yields `"NaN-NaN-NaN"`.  The argument is the parse result of `createdAt`
(`none` = Invalid Date). -/
def dateStrOf (parsed : Option Timestamp) : String :=
  jsNumToString (parsed.map Timestamp.year) ++ "-" ++
    padStart2 (jsNumToString (parsed.map (fun t => t.monthIdx + 1))) ++ "-" ++
    padStart2 (jsNumToString (parsed.map Timestamp.day))

/-- Embeds `matchesDateFilter(createdAt)`: truncate `createdAt` to a UTC calendar-day
string and compare against the configured filter — string equality in single
mode, string range check (`>= start && <= end`) in range mode. -/
def matchesDateFilter (df : FilterMode) (parsed : Option Timestamp) : Bool :=
  let dateStr := dateStrOf parsed
  match df with
  | .single date => dateStr == date
  | .range startDate endDate => jsStrGe dateStr startDate && jsStrLe dateStr endDate

/-! ## `filterByDate` (delete-orgs.js lines 379–413) -/

/-- The warning line printed for an entity with no `createdAt` field. -/
def noCreatedAtWarning (entityType : String) (e : RawEntity) : String :=
  entityType ++ " " ++ e.id ++ " has no createdAt field"

/-- Embeds `filterByDate`: keep entities whose `createdAt` matches the filter.  An
entity with a missing (falsy) `createdAt` is dropped and produces a warning
log line; an entity whose `createdAt` is present but unparseable reaches
`matchesDateFilter` with an Invalid Date and is judged there (silently).
Returns the kept entities (input order) and the warning lines. -/
def filterByDate (df : FilterMode) (entityType : String) :
    List RawEntity → List RawEntity × List String
  | [] => ([], [])
  | e :: es =>
    let rest := filterByDate df entityType es
    match e.createdAt with
    | .missing => (rest.1, noCreatedAtWarning entityType e :: rest.2)
    | .invalid =>
      (if matchesDateFilter df none then e :: rest.1 else rest.1, rest.2)
    | .parsed t =>
      (if matchesDateFilter df (some t) then e :: rest.1 else rest.1, rest.2)

/-! ## `executeWithRateLimit` (delete-orgs.js lines 252–270) -/

/-- A JS error as the script inspects it: an optional `status` (HTTP code)
and a `message`. -/
structure JsError where
  status : Option Nat
  message : String
deriving DecidableEq, Repr

/-- The observable trace of one `executeWithRateLimit` invocation: the final
result (`.ok` = the API call's resolution, `.error` = the thrown error), the
backoff sleeps performed (milliseconds, in order), the number of
rate-limiter tokens acquired and the number of times `apiCall` was invoked. -/
structure ExecTrace where
  result : Except JsError Unit
  sleepsMs : List Nat
  tokensAcquired : Nat
  callsMade : Nat
deriving Repr

/-- The `for (let attempt = 1; attempt <= maxRetries; attempt++)` loop of
`executeWithRateLimit`.  `apiCall n` is the outcome of the `n`-th invocation
of the API call.  Each iteration acquires a token then invokes the call; a
429 failure with `attempt < maxRetries` sleeps `2^attempt * 1000` ms and
retries; any other failure (including a 429 on the last allowed attempt) is
re-thrown.  `fuel` is the number of iterations the `for` loop still has
(initially `maxRetries`); if the loop ends without returning, the JS
function resolves with `undefined` (unreachable for `maxRetries ≥ 1`). -/
def execLoop (apiCall : Nat → Except JsError Unit) (maxRetries : Nat) :
    Nat → Nat → ExecTrace
  | _, 0 => ⟨.ok (), [], 0, 0⟩
  | attempt, fuel + 1 =>
    match apiCall attempt with
    | .ok _ => ⟨.ok (), [], 1, 1⟩
    | .error e =>
      if e.status = some 429 ∧ attempt < maxRetries then
        let rest := execLoop apiCall maxRetries (attempt + 1) fuel
        ⟨rest.result, 2 ^ attempt * 1000 :: rest.sleepsMs,
          1 + rest.tokensAcquired, 1 + rest.callsMade⟩
      else ⟨.error e, [], 1, 1⟩

/-- Embeds `executeWithRateLimit(apiCall, maxRetries = 3)`. -/
def executeWithRateLimit (apiCall : Nat → Except JsError Unit)
    (maxRetries : Nat := 3) : ExecTrace :=
  execLoop apiCall maxRetries 1 maxRetries

/-! ## `TokenBucketRateLimiter` (delete-orgs.js lines 50–93)

JS numbers are modelled as exact rationals; timestamps (`Date.now()`) are
rationals in milliseconds. -/

/-- The mutable state of `TokenBucketRateLimiter`. -/
structure BucketState where
  capacity : ℚ
  tokens : ℚ
  refillRate : ℚ
  lastRefill : ℚ
deriving DecidableEq, Repr

/-- Embeds `new TokenBucketRateLimiter(maxRequestsPerSecond)` at time `now`. -/
def BucketState.init (maxRequestsPerSecond now : ℚ) : BucketState :=
  ⟨maxRequestsPerSecond, maxRequestsPerSecond, maxRequestsPerSecond, now⟩

/-- Embeds `refillTokens()` executed when `Date.now()` is `now`:
`tokens = min(capacity, tokens + (now - lastRefill)/1000 * refillRate)` and
`lastRefill = now`. -/
def refillTokens (now : ℚ) (st : BucketState) : BucketState :=
  let timePassed := (now - st.lastRefill) / 1000
  let tokensToAdd := timePassed * st.refillRate
  { st with tokens := min st.capacity (st.tokens + tokensToAdd), lastRefill := now }

/-- One `tryAcquire` step of `acquireToken()` at time `now`: refill, then if
`tokens >= 1` take one token and resolve (`true`); otherwise leave the
refilled state and schedule a retry (`false`).  `acquireToken`'s polling
loop is a sequence of these steps at increasing times. -/
def tryAcquire (now : ℚ) (st : BucketState) : Bool × BucketState :=
  let st' := refillTokens now st
  if 1 ≤ st'.tokens then (true, { st' with tokens := st'.tokens - 1 })
  else (false, st')

/-- Run a sequence of `tryAcquire` polls at the given times. -/
def runAcquires : List ℚ → BucketState → BucketState
  | [], st => st
  | t :: ts, st => runAcquires ts (tryAcquire t st).2

/-- The token-bucket well-formedness invariant: `0 ≤ tokens ≤ capacity`. -/
def BucketInv (st : BucketState) : Prop :=
  0 ≤ st.tokens ∧ st.tokens ≤ st.capacity

/-! ## `deleteEntitiesConcurrently` (delete-orgs.js lines 478–563)

Outcome bookkeeping is modelled as a fold over the entity list: each task
records exactly one outcome (success or failure — the failure is caught
inside the task), so the resulting outcome multisets agree with any
interleaving of the real concurrent tasks; the real completion order only
permutes the `successful`/`failed` lists.  The `Promise.race` admission
logic that bounds in-flight tasks is modelled separately below
(`admissionTrace`). -/

/-- Which entity type a run is deleting. -/
inductive EntityType where
  | organization
  | user
deriving DecidableEq, Repr

/-- The display name computed inside each deletion task (lines 520–522):
organizations use `entity.name || 'Unnamed'`; users use
`firstName && lastName ? firstName + ' ' + lastName : email || 'Unnamed'`. -/
def taskDisplayName (ty : EntityType) (e : RawEntity) : String :=
  match ty with
  | .organization => jsOr e.name "Unnamed"
  | .user =>
    if e.firstName ≠ "" ∧ e.lastName ≠ "" then e.firstName ++ " " ++ e.lastName
    else jsOr e.email "Unnamed"

/-- The display name used on the dry-run path (line 489): organizations use
`entity.name || 'Unnamed'`; users use `entity.email || 'Unnamed'`. -/
def dryRunDisplayName (ty : EntityType) (e : RawEntity) : String :=
  match ty with
  | .organization => jsOr e.name "Unnamed"
  | .user => jsOr e.email "Unnamed"

/-- A record pushed onto `results.successful`. -/
structure SuccessRecord where
  id : String
  name : String
  createdAt : CreatedAt
deriving DecidableEq, Repr

/-- A record pushed onto `results.failed` (carries `error.message`). -/
structure FailureRecord where
  id : String
  name : String
  createdAt : CreatedAt
  error : String
deriving DecidableEq, Repr

/-- The `results` object returned by `deleteEntitiesConcurrently`. -/
structure DeleteResults where
  successful : List SuccessRecord
  failed : List FailureRecord
deriving DecidableEq, Repr

/-- Side-effect trace of a `deleteEntitiesConcurrently` run: how many times
the remote delete capability was invoked, how many rate-limiter tokens were
acquired, and the backoff sleeps performed. -/
structure RunTrace where
  remoteCalls : Nat
  tokensAcquired : Nat
  sleepsMs : List Nat
deriving DecidableEq, Repr

/-- The non-dry-run deletion tasks: each entity's delete goes through
`executeWithRateLimit(() => deleteFunction(entity.id))`; success pushes a
`SuccessRecord`, any caught error pushes a `FailureRecord` — the task never
re-throws.  `deleteOracle id n` is the outcome of the `n`-th delete attempt
for entity `id`. -/
def runDeletionTasks (ty : EntityType)
    (deleteOracle : String → Nat → Except JsError Unit) :
    List RawEntity → DeleteResults × RunTrace
  | [] => (⟨[], []⟩, ⟨0, 0, []⟩)
  | e :: es =>
    let name := taskDisplayName ty e
    let tr := executeWithRateLimit (deleteOracle e.id) 3
    let rest := runDeletionTasks ty deleteOracle es
    let results :=
      match tr.result with
      | .ok _ =>
        { rest.1 with successful := ⟨e.id, name, e.createdAt⟩ :: rest.1.successful }
      | .error err =>
        { rest.1 with failed := ⟨e.id, name, e.createdAt, err.message⟩ :: rest.1.failed }
    (results,
      ⟨tr.callsMade + rest.2.remoteCalls, tr.tokensAcquired + rest.2.tokensAcquired,
        tr.sleepsMs ++ rest.2.sleepsMs⟩)

/-- Embeds `deleteEntitiesConcurrently(entities, deleteFunction, entityType)`:
empty input returns immediately (lines 479–482); dry-run mode (lines
484–494) synthesizes one success per entity without touching the rate
limiter or the remote API; otherwise every entity runs one deletion task. -/
def deleteEntitiesConcurrently (dryRun : Bool) (entities : List RawEntity)
    (deleteOracle : String → Nat → Except JsError Unit) (ty : EntityType) :
    DeleteResults × RunTrace :=
  if entities.isEmpty then (⟨[], []⟩, ⟨0, 0, []⟩)
  else if dryRun then
    (⟨entities.map (fun e => ⟨e.id, dryRunDisplayName ty e, e.createdAt⟩), []⟩,
      ⟨0, 0, []⟩)
  else runDeletionTasks ty deleteOracle entities

/-! ### The `Promise.race` admission loop (lines 510–560)

The launch loop keeps `processingQueue` of unsettled task promises.  Before
each launch, if `processingQueue.length >= CONCURRENCY_LIMIT` it awaits
`Promise.race(processingQueue)`; each task's `finally` handler (registered
at push time, so it runs before the race continuation) splices the settled
promise out, so when the race continuation resumes at least one task has
left the queue.  The model tracks only the queue length: `sched i` says how
many tasks the scheduler settles at the `i`-th race (clamped to at least 1 —
`Promise.race` resolves only once some task settles — and at most the queue
length).  The returned trace lists the queue length right after each launch;
since launches are the only increases, the maximum in-flight count over the
whole run is the maximum of this trace. -/

def admissionTrace (limit : Nat) (sched : Nat → Nat) :
    List RawEntity → Nat → Nat → List Nat
  | [], _, _ => []
  | _ :: es, i, q =>
    if limit ≤ q then
      let q' := q - min (max (sched i) 1) q + 1
      q' :: admissionTrace limit sched es (i + 1) q'
    else
      (q + 1) :: admissionTrace limit sched es (i + 1) (q + 1)

/-! ## `parseArguments` (delete-orgs.js lines 101–184) and `main` (626–696) -/

/-- ASCII decimal digit test. -/
def isDigitChar (c : Char) : Bool := 48 ≤ c.toNat && c.toNat ≤ 57

/-- The regex `/^\d{4}-\d{2}-\d{2}$/`. -/
def dateRegexTest (s : String) : Bool :=
  match s.data with
  | [y1, y2, y3, y4, h1, m1, m2, h2, d1, d2] =>
    isDigitChar y1 && isDigitChar y2 && isDigitChar y3 && isDigitChar y4 &&
      h1 == '-' && isDigitChar m1 && isDigitChar m2 && h2 == '-' &&
      isDigitChar d1 && isDigitChar d2
  | _ => false

/-- Numeric value of an ASCII digit. -/
def digitVal (c : Char) : Nat := c.toNat - 48

/-- Days in a (1-based) month of a given year, Gregorian rules. -/
def daysInMonth (y m : Nat) : Nat :=
  if m = 2 then (if (y % 4 = 0 ∧ y % 100 ≠ 0) ∨ y % 400 = 0 then 29 else 28)
  else if m = 4 ∨ m = 6 ∨ m = 9 ∨ m = 11 then 30 else 31

/-- Modelled from the observable behaviour of JS `new Date("YYYY-MM-DD")` on
regex-conforming input: the parse yields a valid date exactly when the month
is 1–12 and the day is within that month. -/
def jsDateParses (s : String) : Bool :=
  match s.data with
  | [_, _, _, _, _, m1, m2, _, d1, d2] =>
    let m := digitVal m1 * 10 + digitVal m2
    let d := digitVal d1 * 10 + digitVal d2
    let y := match s.data with
      | y1 :: y2 :: y3 :: y4 :: _ =>
        ((digitVal y1 * 10 + digitVal y2) * 10 + digitVal y3) * 10 + digitVal y4
      | _ => 0
    1 ≤ m && m ≤ 12 && 1 ≤ d && d ≤ daysInMonth y m
  | _ => false

/-- The check `validateDate` succeeds (does not exit) iff the regex matches and
`new Date(dateStr)` is not an Invalid Date. -/
def validateDateOk (s : String) : Bool := dateRegexTest s && jsDateParses s

/-- The epoch-order key of a conforming `YYYY-MM-DD` string: comparing two
parsed `Date` objects (`startDate > endDate` compares epoch milliseconds)
agrees with comparing these numeric keys. -/
def dateKey (s : String) : Nat :=
  match s.data with
  | [y1, y2, y3, y4, _, m1, m2, _, d1, d2] =>
    (((digitVal y1 * 10 + digitVal y2) * 10 + digitVal y3) * 10 + digitVal y4)
        * 10000 +
      (digitVal m1 * 10 + digitVal m2) * 100 + (digitVal d1 * 10 + digitVal d2)
  | _ => 0

/-- The configuration object returned by `parseArguments`. -/
structure ParsedConfig where
  mode : FilterMode
  deleteUsers : Bool
  debug : Bool
  dryRun : Bool
deriving DecidableEq, Repr

/-- How `parseArguments` terminates: `process.exit(0)` after `--help`,
`process.exit(1)` on a usage/validation error, or a configuration. -/
inductive ParseOutcome where
  | exitHelp
  | exitUsageError
  | ok (cfg : ParsedConfig)
deriving DecidableEq, Repr

/-- Embeds `parseArguments()` over `process.argv.slice(2)`. -/
def parseArguments (argv : List String) : ParseOutcome :=
  if argv.contains "--help" || argv.contains "-h" then .exitHelp
  else
    let deleteUsers := argv.contains "--users"
    let a1 := argv.filter (fun a => a ≠ "--users")
    let debug := a1.contains "--debug"
    let a2 := a1.filter (fun a => a ≠ "--debug")
    let dryRun := a2.contains "--dry-run"
    let args := a2.filter (fun a => a ≠ "--dry-run")
    match args with
    | [] => .exitUsageError
    | [d] =>
      if validateDateOk d then .ok ⟨.single d, deleteUsers, debug, dryRun⟩
      else .exitUsageError
    | [s, e] =>
      if validateDateOk s then
        if validateDateOk e then
          if dateKey e < dateKey s then .exitUsageError
          else .ok ⟨.range s e, deleteUsers, debug, dryRun⟩
        else .exitUsageError
      else .exitUsageError
    | _ => .exitUsageError

/-- The external world of one run of `main`: whether `WORKOS_API_KEY` is
set, the outcome of the paginated organization/user fetches (a fetch
failure propagates out of `fetchAll*` and is caught by `main`'s top-level
`try`), and the per-entity delete oracles. -/
structure RunEnv where
  apiKeyPresent : Bool
  orgFetch : Except JsError (List RawEntity)
  userFetch : Except JsError (List RawEntity)
  orgDelete : String → Nat → Except JsError Unit
  userDelete : String → Nat → Except JsError Unit

/-- The process exit status of one run of the script: argument parsing
(module initialization), then `main`: API-key check, fetch → filter →
delete for organizations, the same for users when `--users` is set, and
finally `process.exit(totalFailed > 0 ? 1 : 0)`; any error escaping a fetch
hits the top-level `catch` and exits 1. -/
def mainExitCode (argv : List String) (env : RunEnv) : Nat :=
  match parseArguments argv with
  | .exitHelp => 0
  | .exitUsageError => 1
  | .ok cfg =>
    if !env.apiKeyPresent then 1
    else
      match env.orgFetch with
      | .error _ => 1
      | .ok orgs =>
        let orgRes := (deleteEntitiesConcurrently cfg.dryRun
          (filterByDate cfg.mode "organization" orgs).1 env.orgDelete
          .organization).1
        if cfg.deleteUsers then
          match env.userFetch with
          | .error _ => 1
          | .ok users =>
            let userRes := (deleteEntitiesConcurrently cfg.dryRun
              (filterByDate cfg.mode "user" users).1 env.userDelete .user).1
            if orgRes.failed.length + userRes.failed.length > 0 then 1 else 0
        else
          if orgRes.failed.length > 0 then 1 else 0

/-! ## Concrete instances used by the claims -/

/-- The rate-limit error the remote API signals (HTTP 429). -/
def err429 : JsError := ⟨some 429, "Too Many Requests"⟩

/-- An API call that fails with a rate-limit error on every attempt. -/
def always429 : Nat → Except JsError Unit := fun _ => .error err429

/-- Whether the deletion task for entity `e` ends in success: the result of
`executeWithRateLimit(() => deleteFunction(e.id))` is a resolution, not a
thrown error. -/
def taskSucceeds (deleteOracle : String → Nat → Except JsError Unit)
    (e : RawEntity) : Bool :=
  match (executeWithRateLimit (deleteOracle e.id) 3).result with
  | .ok _ => true
  | .error _ => false

/-- The `error.message` recorded for a failing task (`""` if it succeeded,
unused in that case). -/
def errMsgOf (deleteOracle : String → Nat → Except JsError Unit)
    (e : RawEntity) : String :=
  match (executeWithRateLimit (deleteOracle e.id) 3).result with
  | .ok _ => ""
  | .error err => err.message

/-- Sample organizations for the concrete scenarios. -/
def entA : RawEntity :=
  ⟨"org_A", "Alpha Inc", "", "", "", .parsed ⟨2005, 11, 17, 10, 0, 0⟩⟩

def entB : RawEntity :=
  ⟨"org_B", "Beta LLC", "", "", "", .parsed ⟨2005, 11, 17, 11, 0, 0⟩⟩

def entC : RawEntity :=
  ⟨"org_C", "Gamma Co", "", "", "", .parsed ⟨2005, 11, 17, 12, 0, 0⟩⟩

/-- A delete capability for which `org_B` always fails (a non-retryable
error) while every other id succeeds immediately. -/
def oracleFailB : String → Nat → Except JsError Unit := fun id _ =>
  if id = "org_B" then .error ⟨some 404, "Organization not found"⟩ else .ok ()

/-- A user entity with first/last name and email, used to probe the
display-name derivation. -/
def adaUser : RawEntity :=
  ⟨"user_ada", "", "Ada", "Lovelace", "ada@example.com",
    .parsed ⟨2005, 11, 17, 9, 0, 0⟩⟩

/-- An entity whose `createdAt` is present but not a parseable timestamp. -/
def garbageDateOrg : RawEntity := ⟨"org_garbage", "Garbage", "", "", "", .invalid⟩

/-- An entity whose `createdAt` field is missing. -/
def noDateOrg : RawEntity := ⟨"org_nodate", "NoDate", "", "", "", .missing⟩

/-- Display-name derivation exactly as the claim words it: the first
non-empty of `name`, `firstName+lastName`, `email`, with a placeholder.
Stated from the spec sentence, to be compared with the source-derived
`taskDisplayName`/`dryRunDisplayName`. -/
def claimedDisplayName (e : RawEntity) : String :=
  if e.name ≠ "" then e.name
  else if e.firstName ≠ "" ∧ e.lastName ≠ "" then e.firstName ++ " " ++ e.lastName
  else if e.email ≠ "" then e.email
  else "Unnamed"

/-! ## Helper lemmas -/

/-- The outcome lists produced by the (non-dry-run) deletion tasks: one
record per entity, successes and failures split by the task's own result,
names and error messages as recorded inside the task. -/
theorem runDeletionTasks_spec (ty : EntityType)
    (deleteOracle : String → Nat → Except JsError Unit) :
    ∀ es : List RawEntity,
      (runDeletionTasks ty deleteOracle es).1.successful =
        (es.filter (taskSucceeds deleteOracle)).map
          (fun e => ⟨e.id, taskDisplayName ty e, e.createdAt⟩) ∧
      (runDeletionTasks ty deleteOracle es).1.failed =
        (es.filter (fun e => !taskSucceeds deleteOracle e)).map
          (fun e => ⟨e.id, taskDisplayName ty e, e.createdAt, errMsgOf deleteOracle e⟩) := by
  intro es
  induction es with
  | nil => exact ⟨rfl, rfl⟩
  | cons e es ih =>
    rw [runDeletionTasks]
    cases hres : (executeWithRateLimit (deleteOracle e.id) 3).result with
    | ok v =>
      have hs : taskSucceeds deleteOracle e = true := by
        simp [taskSucceeds, hres]
      simp only [hres, List.filter_cons, hs, Bool.not_true, List.map_cons]
      exact ⟨by simp [List.map_cons, ih.1], by simp [ih.2]⟩
    | error err =>
      have hs : taskSucceeds deleteOracle e = false := by
        simp [taskSucceeds, hres]
      have hm : errMsgOf deleteOracle e = err.message := by
        simp [errMsgOf, hres]
      simp only [hres, List.filter_cons, hs, Bool.not_false, List.map_cons]
      exact ⟨by simp [ih.1], by simp [List.map_cons, ih.2, hm]⟩

/-- Outcome conservation for the non-dry-run tasks. -/
theorem runDeletionTasks_length (ty : EntityType)
    (deleteOracle : String → Nat → Except JsError Unit) (es : List RawEntity) :
    (runDeletionTasks ty deleteOracle es).1.successful.length +
      (runDeletionTasks ty deleteOracle es).1.failed.length = es.length := by
  obtain ⟨h1, h2⟩ := runDeletionTasks_spec ty deleteOracle es
  rw [h1, h2, List.length_map, List.length_map]
  exact (List.length_eq_length_filter_add (taskSucceeds deleteOracle)).symm

/-- A regex-conforming `YYYY-MM-DD` string starts with an ASCII digit. -/
theorem dateRegexTest_head (s : String) (h : dateRegexTest s = true) :
    ∃ c rest, s.data = c :: rest ∧ isDigitChar c = true := by
  unfold dateRegexTest at h
  split at h
  · next y1 y2 y3 y4 h1 m1 m2 h2 d1 d2 heq =>
    refine ⟨y1, _, heq, ?_⟩
    simp only [Bool.and_eq_true] at h
    exact h.1.1.1.1.1.1.1.1.1
  · exact absurd h (by simp)

/-- The Invalid-Date day string `"NaN-NaN-NaN"` is never `<=` (JS string
order) a regex-conforming date string, because `'N'` sorts after every
digit. -/
theorem nan_le_valid_false (s : String) (h : dateRegexTest s = true) :
    jsStrLe (dateStrOf none) s = false := by
  obtain ⟨c, rest, hs, hc⟩ := dateRegexTest_head s h
  have hc2 : c.toNat ≤ 57 := by
    simp only [isDigitChar, Bool.and_eq_true, decide_eq_true_eq] at hc
    exact hc.2
  have hd : (dateStrOf none).data = 'N' :: "aN-NaN-NaN".data := rfl
  rw [jsStrLe, hd, hs, jsStrLeList]
  have hN : ('N' : Char).toNat = 78 := rfl
  rw [if_neg (by omega), if_pos (by omega)]

/-- The Invalid-Date day string is never equal (JS `===`) to a
regex-conforming date string. -/
theorem nan_beq_valid_false (s : String) (h : dateRegexTest s = true) :
    (dateStrOf none == s) = false := by
  obtain ⟨c, rest, hs, hc⟩ := dateRegexTest_head s h
  apply beq_eq_false_iff_ne.mpr
  intro he
  have hdd : (dateStrOf none).data = 'N' :: "aN-NaN-NaN".data := rfl
  rw [he, hs] at hdd
  have hcN : c = 'N' := (List.cons.injEq _ _ _ _ ▸ hdd).1
  rw [hcN] at hc
  exact absurd hc (by decide)

/-- The lazy refill keeps `0 ≤ tokens ≤ capacity` when time moves forward
and the refill rate is non-negative. -/
theorem bucket_refill_inv (st : BucketState) (now : ℚ) (hinv : BucketInv st)
    (hrate : 0 ≤ st.refillRate) (ht : st.lastRefill ≤ now) :
    BucketInv (refillTokens now st) := by
  obtain ⟨h0, hc⟩ := hinv
  have hcap : 0 ≤ st.capacity := le_trans h0 hc
  have hadd : 0 ≤ (now - st.lastRefill) / 1000 * st.refillRate :=
    mul_nonneg (div_nonneg (sub_nonneg.mpr ht) (by norm_num)) hrate
  constructor
  · exact le_min hcap (add_nonneg h0 hadd)
  · exact min_le_left _ _

/-- One poll of `acquireToken` (refill, then conditionally take a token)
preserves the bucket invariant. -/
theorem bucket_try_inv (st : BucketState) (now : ℚ) (hinv : BucketInv st)
    (hrate : 0 ≤ st.refillRate) (ht : st.lastRefill ≤ now) :
    BucketInv ((tryAcquire now st).2) := by
  have hr := bucket_refill_inv st now hinv hrate ht
  rw [tryAcquire]
  by_cases h1 : 1 ≤ (refillTokens now st).tokens
  · rw [if_pos h1]
    refine ⟨?_, ?_⟩
    · show 0 ≤ (refillTokens now st).tokens - 1
      linarith
    · show (refillTokens now st).tokens - 1 ≤ (refillTokens now st).capacity
      have h2 := hr.2
      linarith
  · rw [if_neg h1]
    exact hr

/-- Polling never changes the refill rate. -/
theorem tryAcquire_refillRate (st : BucketState) (now : ℚ) :
    ((tryAcquire now st).2).refillRate = st.refillRate := by
  rw [tryAcquire]
  split <;> rfl

/-- Every poll — whether or not it yields a token — stamps `lastRefill`
with the current time. -/
theorem tryAcquire_lastRefill (st : BucketState) (now : ℚ) :
    ((tryAcquire now st).2).lastRefill = now := by
  rw [tryAcquire]
  split <;> rfl

/-- The bucket invariant is preserved along any monotone-in-time sequence of
acquisition polls. -/
theorem bucket_run_inv (ts : List ℚ) : ∀ st : BucketState, BucketInv st →
    0 ≤ st.refillRate → List.Chain (fun a b => a ≤ b) st.lastRefill ts →
    BucketInv (runAcquires ts st) := by
  induction ts with
  | nil => intro st h _ _; exact h
  | cons t ts ih =>
    intro st hinv hrate hchain
    rw [List.chain_cons] at hchain
    rw [runAcquires]
    refine ih _ (bucket_try_inv st t hinv hrate hchain.1) ?_ ?_
    · rw [tryAcquire_refillRate]; exact hrate
    · rw [tryAcquire_lastRefill]; exact hchain.2

/-- The predicate describing a run that parses, starts, and finishes with no
recorded deletion failure: valid arguments, API key present, every needed
fetch succeeds, and both `failed` multisets are empty. -/
def cleanRun (cfg : ParsedConfig) (env : RunEnv) : Prop :=
  env.apiKeyPresent = true ∧
  ∃ orgs, env.orgFetch = .ok orgs ∧
    (deleteEntitiesConcurrently cfg.dryRun
      (filterByDate cfg.mode "organization" orgs).1 env.orgDelete
      .organization).1.failed = [] ∧
    (cfg.deleteUsers = true → ∃ users, env.userFetch = .ok users ∧
      (deleteEntitiesConcurrently cfg.dryRun
        (filterByDate cfg.mode "user" users).1 env.userDelete
        .user).1.failed = [])

/-! ## Claims -/

/-- C1 (counterexample): with `maxRetries = 3` and a call that fails with
HTTP 429 on every attempt, the executor does *not* perform the claimed
waits of 2s, 4s and 8s: the loop only sleeps after attempts 1 and 2 (the
`attempt < maxRetries` guard re-throws the third 429 without sleeping), so
there are exactly two waits, 2000 ms and 4000 ms. -/
theorem backoff_schedule_counterexample :
    (executeWithRateLimit always429 3).sleepsMs ≠ [2000, 4000, 8000] := by
  decide

/-- C1 (amended): with `maxRetries = 3` and a call that fails with a
rate-limit (HTTP 429) error on every attempt, the executor sleeps
`2^attempt` seconds after failed attempts 1 and 2 — waits of exactly 2s and
4s — acquires a token and invokes the call three times, and after the third
failed attempt re-raises that attempt's rate-limit error with no further
wait. -/
theorem backoff_schedule_amended (f : Nat → Except JsError Unit)
    (h : ∀ n, ∃ msg, f n = .error ⟨some 429, msg⟩) :
    (executeWithRateLimit f 3).sleepsMs = [2000, 4000] ∧
    (executeWithRateLimit f 3).tokensAcquired = 3 ∧
    (executeWithRateLimit f 3).callsMade = 3 ∧
    ∀ e, f 3 = Except.error e → (executeWithRateLimit f 3).result = Except.error e := by
  obtain ⟨m1, h1⟩ := h 1
  obtain ⟨m2, h2⟩ := h 2
  obtain ⟨m3, h3⟩ := h 3
  refine ⟨?_, ?_, ?_, ?_⟩
  · simp [executeWithRateLimit, execLoop, h1, h2, h3]
  · simp [executeWithRateLimit, execLoop, h1, h2, h3]
  · simp [executeWithRateLimit, execLoop, h1, h2, h3]
  · intro e he
    simp [executeWithRateLimit, execLoop, h1, h2, he]

/-- Witness for C1 (amended) at the concrete always-429 call. -/
theorem backoff_schedule_amended_witness :
    (executeWithRateLimit always429 3).sleepsMs = [2000, 4000] ∧
    (executeWithRateLimit always429 3).result = Except.error err429 := by
  have h := backoff_schedule_amended always429 (fun n => ⟨"Too Many Requests", rfl⟩)
  exact ⟨h.1, h.2.2.2 err429 rfl⟩

/-- C2: the date filter selects exactly the entities whose `createdAt`,
truncated to a UTC calendar day, equals the single target day or falls in
`[start, end]` inclusive.  Quantifying over every month index and day of a
bounded calendar grid for the claim's concrete filters: in range mode
`["2005-12-17","2005-12-25"]` exactly December 17–25 match, and in single
mode `"2005-12-17"` exactly December 17 matches; the time of day is
irrelevant — `2005-12-17T23:59:59Z` matches the single day while
`2005-12-18T00:00:00Z` does not, and both range boundary days match while
the days just outside do not. -/
theorem dateFilter_selects_target_days :
    (∀ m, m < 12 → ∀ d, d < 32 → 1 ≤ d →
      (matchesDateFilter (.range "2005-12-17" "2005-12-25")
          (some ⟨2005, m, d, 0, 0, 0⟩) = decide (m = 11 ∧ 17 ≤ d ∧ d ≤ 25)) ∧
      (matchesDateFilter (.single "2005-12-17")
          (some ⟨2005, m, d, 0, 0, 0⟩) = decide (m = 11 ∧ d = 17))) ∧
    matchesDateFilter (.single "2005-12-17") (some ⟨2005, 11, 17, 23, 59, 59⟩) = true ∧
    matchesDateFilter (.single "2005-12-17") (some ⟨2005, 11, 18, 0, 0, 0⟩) = false ∧
    matchesDateFilter (.range "2005-12-17" "2005-12-25") (some ⟨2005, 11, 17, 0, 0, 0⟩) = true ∧
    matchesDateFilter (.range "2005-12-17" "2005-12-25") (some ⟨2005, 11, 25, 23, 59, 59⟩) = true ∧
    matchesDateFilter (.range "2005-12-17" "2005-12-25") (some ⟨2005, 11, 16, 23, 59, 59⟩) = false ∧
    matchesDateFilter (.range "2005-12-17" "2005-12-25") (some ⟨2005, 11, 26, 0, 0, 0⟩) = false := by
  decide

/-- Witness for C2 at month index 11 (December), day 20. -/
theorem dateFilter_selects_target_days_witness :
    (matchesDateFilter (.range "2005-12-17" "2005-12-25")
        (some ⟨2005, 11, 20, 0, 0, 0⟩) = decide (11 = 11 ∧ 17 ≤ 20 ∧ 20 ≤ 25)) ∧
    (matchesDateFilter (.single "2005-12-17")
        (some ⟨2005, 11, 20, 0, 0, 0⟩) = decide (11 = 11 ∧ 20 = 17)) :=
  dateFilter_selects_target_days.1 11 (by decide) 20 (by decide) (by decide)

/-- C3: deletion isolation — every task catches its own failure and records
it as a Failure outcome; no failure aborts or removes a sibling's outcome.
In general the successful/failed id lists are exactly the partition of the
input by each task's own result; in particular, for `[A, B, C]` where only
B's delete fails, the run returns `successful = {A, C}`, `failed = {B}` and
(being a total function) completes without throwing. -/
theorem deletion_isolation :
    (∀ (ty : EntityType) (oracle : String → Nat → Except JsError Unit)
        (es : List RawEntity),
      (deleteEntitiesConcurrently false es oracle ty).1.successful.map SuccessRecord.id =
        (es.filter (taskSucceeds oracle)).map RawEntity.id ∧
      (deleteEntitiesConcurrently false es oracle ty).1.failed.map FailureRecord.id =
        (es.filter (fun e => !taskSucceeds oracle e)).map RawEntity.id) ∧
    (deleteEntitiesConcurrently false [entA, entB, entC] oracleFailB .organization).1 =
      ⟨[⟨"org_A", "Alpha Inc", entA.createdAt⟩, ⟨"org_C", "Gamma Co", entC.createdAt⟩],
        [⟨"org_B", "Beta LLC", entB.createdAt, "Organization not found"⟩]⟩ := by
  constructor
  · intro ty oracle es
    cases es with
    | nil => exact ⟨rfl, rfl⟩
    | cons e es' =>
      have hspec := runDeletionTasks_spec ty oracle (e :: es')
      constructor
      · show (runDeletionTasks ty oracle (e :: es')).1.successful.map SuccessRecord.id = _
        rw [hspec.1, List.map_map]
        rfl
      · show (runDeletionTasks ty oracle (e :: es')).1.failed.map FailureRecord.id = _
        rw [hspec.2, List.map_map]
        rfl
  · decide

/-- C4: concurrency bound — in the admission-loop model of the
`Promise.race` launch loop, with a positive concurrency limit and any
completion schedule, the number of started-but-unfinished tasks never
exceeds the limit: every queue length recorded just after a launch is at
most `limit` (completions only shrink the queue). -/
theorem concurrency_bound (limit : Nat) (sched : Nat → Nat) (es : List RawEntity) :
    ∀ i q, 1 ≤ limit → q ≤ limit →
      ∀ x ∈ admissionTrace limit sched es i q, x ≤ limit := by
  induction es with
  | nil =>
    intro i q _ _ x hx
    simp [admissionTrace] at hx
  | cons e es ih =>
    intro i q hlim hq x hx
    rw [admissionTrace] at hx
    by_cases h : limit ≤ q
    · rw [if_pos h] at hx
      have hq1 : 1 ≤ q := le_trans hlim h
      have hk : 1 ≤ min (max (sched i) 1) q := le_min (le_max_right _ _) hq1
      have hq2 : q - min (max (sched i) 1) q + 1 ≤ limit := by omega
      rcases List.mem_cons.mp hx with h1 | h1
      · omega
      · exact ih (i + 1) _ hlim hq2 x h1
    · rw [if_neg h] at hx
      have hq2 : q + 1 ≤ limit := by omega
      rcases List.mem_cons.mp hx with h1 | h1
      · omega
      · exact ih (i + 1) _ hlim hq2 x h1

/-- Witness for C4: limit 2, five entities, a schedule finishing one task
per race; the queue length 2 recorded in that run's trace is within the
limit. -/
theorem concurrency_bound_witness :
    1 ≤ 2 ∧ 0 ≤ 2 ∧
      2 ∈ admissionTrace 2 (fun _ => 1) [entA, entB, entC, entA, entB] 0 0 ∧ 2 ≤ 2 :=
  ⟨by decide, by decide, by decide,
    concurrency_bound 2 (fun _ => 1) [entA, entB, entC, entA, entB] 0 0
      (by decide) (by decide) 2 (by decide)⟩

/-- C5: token-bucket invariant and refill law — the refill computed on an
acquisition poll is `tokens = min(capacity, tokens + elapsedSeconds *
refillRate)` with `lastRefill` stamped to "now" on every refill (also on
polls that yield no token); the freshly constructed bucket satisfies
`0 ≤ tokens ≤ capacity`, and that invariant is preserved by every single
refill/poll and along every monotone-in-time sequence of polls. -/
theorem tokenBucket_invariant_and_refill_law :
    (∀ (st : BucketState) (now : ℚ),
      (refillTokens now st).tokens =
        min st.capacity (st.tokens + (now - st.lastRefill) / 1000 * st.refillRate) ∧
      (refillTokens now st).lastRefill = now) ∧
    (∀ (st : BucketState) (now : ℚ), ((tryAcquire now st).2).lastRefill = now) ∧
    (∀ maxRPS now : ℚ, 0 ≤ maxRPS → BucketInv (BucketState.init maxRPS now)) ∧
    (∀ (st : BucketState) (now : ℚ), BucketInv st → 0 ≤ st.refillRate →
      st.lastRefill ≤ now →
      BucketInv (refillTokens now st) ∧ BucketInv ((tryAcquire now st).2)) ∧
    (∀ (st : BucketState) (ts : List ℚ), BucketInv st → 0 ≤ st.refillRate →
      List.Chain (fun a b => a ≤ b) st.lastRefill ts →
      BucketInv (runAcquires ts st)) := by
  refine ⟨fun st now => ⟨rfl, rfl⟩, tryAcquire_lastRefill, ?_, ?_, ?_⟩
  · exact fun maxRPS now h => ⟨h, le_refl _⟩
  · exact fun st now hinv hrate ht =>
      ⟨bucket_refill_inv st now hinv hrate ht, bucket_try_inv st now hinv hrate ht⟩
  · exact fun st ts hinv hrate hchain => bucket_run_inv ts st hinv hrate hchain

/-- Witness for C5 at a concrete bucket and poll sequence. -/
theorem tokenBucket_invariant_witness :
    BucketInv (runAcquires [5, 30, 2000] (BucketState.init 40 0)) := by
  have h := tokenBucket_invariant_and_refill_law
  refine h.2.2.2.2 (BucketState.init 40 0) [5, 30, 2000]
    (h.2.2.1 40 0 (by norm_num)) (by norm_num [BucketState.init]) ?_
  refine List.Chain.cons (by norm_num [BucketState.init]) ?_
  exact List.Chain.cons (by norm_num) (List.Chain.cons (by norm_num) List.Chain.nil)

/-- C7: dry-run purity — in dry-run mode the deleter performs zero remote
calls, acquires zero tokens and sleeps never, and returns exactly one
Success outcome per input entity with an empty failed set. -/
theorem dry_run_purity (es : List RawEntity)
    (oracle : String → Nat → Except JsError Unit) (ty : EntityType) :
    deleteEntitiesConcurrently true es oracle ty =
      (⟨es.map (fun e => ⟨e.id, dryRunDisplayName ty e, e.createdAt⟩), []⟩,
        ⟨0, 0, []⟩) ∧
    (deleteEntitiesConcurrently true es oracle ty).1.successful.length = es.length := by
  have h : deleteEntitiesConcurrently true es oracle ty =
      (⟨es.map (fun e => ⟨e.id, dryRunDisplayName ty e, e.createdAt⟩), []⟩,
        ⟨0, 0, []⟩) := by
    cases es with
    | nil => rfl
    | cons e es' => rfl
  exact ⟨h, by rw [h]; exact List.length_map _ _⟩

/-- C8: outcome conservation — in every mode the deleter records exactly one
outcome per input entity (`successful.length + failed.length` equals the
input count), and on the empty list it returns immediately with empty
outcome sets and an all-zero side-effect trace. -/
theorem outcome_conservation :
    (∀ (dryRun : Bool) (es : List RawEntity)
        (oracle : String → Nat → Except JsError Unit) (ty : EntityType),
      (deleteEntitiesConcurrently dryRun es oracle ty).1.successful.length +
        (deleteEntitiesConcurrently dryRun es oracle ty).1.failed.length = es.length) ∧
    (∀ (dryRun : Bool) (oracle : String → Nat → Except JsError Unit)
        (ty : EntityType),
      deleteEntitiesConcurrently dryRun [] oracle ty = (⟨[], []⟩, ⟨0, 0, []⟩)) := by
  constructor
  · intro dr es oracle ty
    cases es with
    | nil => rfl
    | cons e es' =>
      cases dr with
      | true =>
        show (((e :: es').map fun e => (⟨e.id, dryRunDisplayName ty e, e.createdAt⟩ :
            SuccessRecord)).length + ([] : List FailureRecord).length) = _
        rw [List.length_map]
        rfl
      | false =>
        exact runDeletionTasks_length ty oracle (e :: es')
  · intro dr oracle ty
    rfl

/-- C6: exit status — the process exits 0 or 1; it exits 0 exactly when the
run either only printed help or completed with zero Failure outcomes across
both entity types (valid arguments, API key present, every needed fetch
succeeded, both failed multisets empty); every invalid argument, missing
key, aborted fetch or recorded failure exits 1. -/
theorem exit_status_claim (argv : List String) (env : RunEnv) :
    (mainExitCode argv env = 0 ∨ mainExitCode argv env = 1) ∧
    (mainExitCode argv env = 0 ↔
      parseArguments argv = .exitHelp ∨
        ∃ cfg, parseArguments argv = .ok cfg ∧ cleanRun cfg env) := by
  cases hp : parseArguments argv with
  | exitHelp =>
    exact ⟨Or.inl (by simp [mainExitCode, hp]), by simp [mainExitCode, hp]⟩
  | exitUsageError =>
    exact ⟨Or.inr (by simp [mainExitCode, hp]), by simp [mainExitCode, hp]⟩
  | ok cfg =>
    cases hk : env.apiKeyPresent with
    | false =>
      exact ⟨Or.inr (by simp [mainExitCode, hp, hk]),
        by simp [mainExitCode, hp, hk, cleanRun]⟩
    | true =>
      cases hf : env.orgFetch with
      | error err =>
        exact ⟨Or.inr (by simp [mainExitCode, hp, hk, hf]),
          by simp [mainExitCode, hp, hk, hf, cleanRun]⟩
      | ok orgs =>
        cases hu : cfg.deleteUsers with
        | false =>
          by_cases hl : (deleteEntitiesConcurrently cfg.dryRun
              (filterByDate cfg.mode "organization" orgs).1 env.orgDelete
              .organization).1.failed = []
          · refine ⟨Or.inl ?_, ?_⟩
            · simp [mainExitCode, hp, hk, hf, hu, hl]
            · simp [mainExitCode, cleanRun, hp, hk, hf, hu, hl]
          · have hlen : 0 < (deleteEntitiesConcurrently cfg.dryRun
                (filterByDate cfg.mode "organization" orgs).1 env.orgDelete
                .organization).1.failed.length := List.length_pos.mpr hl
            refine ⟨Or.inr ?_, ?_⟩
            · simp [mainExitCode, hp, hk, hf, hu, hlen]
            · simp [mainExitCode, cleanRun, hp, hk, hf, hu, hlen, hl]
        | true =>
          cases hg : env.userFetch with
          | error err2 =>
            exact ⟨Or.inr (by simp [mainExitCode, hp, hk, hf, hu, hg]),
              by simp [mainExitCode, cleanRun, hp, hk, hf, hu, hg]⟩
          | ok users =>
            by_cases hl : (deleteEntitiesConcurrently cfg.dryRun
                (filterByDate cfg.mode "organization" orgs).1 env.orgDelete
                .organization).1.failed = [] ∧
                (deleteEntitiesConcurrently cfg.dryRun
                (filterByDate cfg.mode "user" users).1 env.userDelete
                .user).1.failed = []
            · refine ⟨Or.inl ?_, ?_⟩
              · simp [mainExitCode, hp, hk, hf, hu, hg, hl.1, hl.2]
              · simp [mainExitCode, cleanRun, hp, hk, hf, hu, hg, hl.1, hl.2]
            · have hlen : 0 < (deleteEntitiesConcurrently cfg.dryRun
                  (filterByDate cfg.mode "organization" orgs).1 env.orgDelete
                  .organization).1.failed.length +
                  (deleteEntitiesConcurrently cfg.dryRun
                  (filterByDate cfg.mode "user" users).1 env.userDelete
                  .user).1.failed.length := by
                rcases not_and_or.mp hl with h1 | h1
                · have := List.length_pos.mpr h1
                  omega
                · have := List.length_pos.mpr h1
                  omega
              refine ⟨Or.inr ?_, ?_⟩
              · simp [mainExitCode, hp, hk, hf, hu, hg, hlen]
              · constructor
                · intro h0
                  exact absurd h0 (by simp [mainExitCode, hp, hk, hf, hu, hg, hlen])
                · intro hr
                  rcases hr with hr | ⟨cfg2, hc2, hcr⟩
                  · exact absurd hr (by simp)
                  · obtain rfl : cfg = cfg2 := by
                      injection hc2
                    obtain ⟨hk2, orgs2, hf2, hfl2, hu2⟩ := hcr
                    rw [hf] at hf2
                    obtain rfl : orgs = orgs2 := by
                      injection hf2
                    obtain ⟨users2, hg2, hul2⟩ := hu2 hu
                    rw [hg] at hg2
                    obtain rfl : users = users2 := by
                      injection hg2
                    exact absurd ⟨hfl2, hul2⟩ hl

/-- A concrete run environment in which everything succeeds. -/
def happyEnv : RunEnv :=
  ⟨true, .ok [entA, entC], .ok [], fun _ _ => .ok (), fun _ _ => .ok ()⟩

/-- Witness for C6 at a concrete argument list and environment. -/
theorem exit_status_witness :
    (mainExitCode ["2005-12-17"] happyEnv = 0 ∨
      mainExitCode ["2005-12-17"] happyEnv = 1) ∧
    (mainExitCode ["2005-12-17"] happyEnv = 0 ↔
      parseArguments ["2005-12-17"] = .exitHelp ∨
        ∃ cfg, parseArguments ["2005-12-17"] = .ok cfg ∧ cleanRun cfg happyEnv) :=
  exit_status_claim ["2005-12-17"] happyEnv

/-- C9 (counterexample): a deletion outcome's `name` is *not* always the
first non-empty of `name`, `firstName+lastName`, `email` — in dry-run mode
a user outcome takes `email || 'Unnamed'` directly, so a user with
firstName "Ada", lastName "Lovelace" and email "ada@example.com" gets the
name "ada@example.com" instead of the claimed "Ada Lovelace". -/
theorem display_name_counterexample :
    (deleteEntitiesConcurrently true [adaUser] (fun _ _ => .ok ()) .user).1.successful.map
        SuccessRecord.name = ["ada@example.com"] ∧
    claimedDisplayName adaUser = "Ada Lovelace" ∧
    ("ada@example.com" : String) ≠ "Ada Lovelace" := by
  exact ⟨by decide, by decide, by decide⟩

/-- C9 (amended): every DeletionOutcome carries a `name` derived per entity
type and mode — organizations use `name || 'Unnamed'` in both modes; users
use `firstName + ' ' + lastName` when both are non-empty and otherwise
`email || 'Unnamed'` in normal mode, but `email || 'Unnamed'` (ignoring
first/last name) in dry-run mode. -/
theorem display_name_amended :
    (∀ (ty : EntityType) (oracle : String → Nat → Except JsError Unit)
        (es : List RawEntity),
      (deleteEntitiesConcurrently true es oracle ty).1.successful.map SuccessRecord.name =
        es.map (dryRunDisplayName ty) ∧
      (deleteEntitiesConcurrently false es oracle ty).1.successful.map SuccessRecord.name =
        (es.filter (taskSucceeds oracle)).map (taskDisplayName ty) ∧
      (deleteEntitiesConcurrently false es oracle ty).1.failed.map FailureRecord.name =
        (es.filter (fun e => !taskSucceeds oracle e)).map (taskDisplayName ty)) ∧
    (∀ e : RawEntity,
      taskDisplayName .organization e = jsOr e.name "Unnamed" ∧
      dryRunDisplayName .organization e = jsOr e.name "Unnamed" ∧
      dryRunDisplayName .user e = jsOr e.email "Unnamed" ∧
      (e.firstName ≠ "" ∧ e.lastName ≠ "" →
        taskDisplayName .user e = e.firstName ++ " " ++ e.lastName) ∧
      (¬(e.firstName ≠ "" ∧ e.lastName ≠ "") →
        taskDisplayName .user e = jsOr e.email "Unnamed")) := by
  constructor
  · intro ty oracle es
    refine ⟨?_, ?_, ?_⟩
    · cases es with
      | nil => rfl
      | cons e es' =>
        show ((e :: es').map (fun e =>
            (⟨e.id, dryRunDisplayName ty e, e.createdAt⟩ : SuccessRecord))).map
          SuccessRecord.name = (e :: es').map (dryRunDisplayName ty)
        rw [List.map_map]
        rfl
    · cases es with
      | nil => rfl
      | cons e es' =>
        have hspec := runDeletionTasks_spec ty oracle (e :: es')
        show (runDeletionTasks ty oracle (e :: es')).1.successful.map _ = _
        rw [hspec.1, List.map_map]
        rfl
    · cases es with
      | nil => rfl
      | cons e es' =>
        have hspec := runDeletionTasks_spec ty oracle (e :: es')
        show (runDeletionTasks ty oracle (e :: es')).1.failed.map _ = _
        rw [hspec.2, List.map_map]
        rfl
  · intro e
    refine ⟨rfl, rfl, rfl, ?_, ?_⟩
    · intro h
      show (if e.firstName ≠ "" ∧ e.lastName ≠ "" then e.firstName ++ " " ++ e.lastName
        else jsOr e.email "Unnamed") = e.firstName ++ " " ++ e.lastName
      rw [if_pos h]
    · intro h
      show (if e.firstName ≠ "" ∧ e.lastName ≠ "" then e.firstName ++ " " ++ e.lastName
        else jsOr e.email "Unnamed") = jsOr e.email "Unnamed"
      rw [if_neg h]

/-- Witness for C9 (amended) at the concrete user entity. -/
theorem display_name_amended_witness :
    taskDisplayName .user adaUser = "Ada" ++ " " ++ "Lovelace" :=
  (display_name_amended.2 adaUser).2.2.2.1 ⟨by decide, by decide⟩

/-- C10: an entity whose `createdAt` is present but unparseable gets the
UTC-truncated day string `"NaN-NaN-NaN"`, which equals no regex-conforming
`YYYY-MM-DD` target and is `<=` no regex-conforming range end (`'N'` sorts
after every digit), so it is selected in neither single nor range mode; and
unlike an entity with a missing `createdAt` — which produces a
filtering-anomaly warning — it is excluded silently. -/
theorem invalid_createdAt_never_selected (d e : String) (ty : String)
    (hd : dateRegexTest d = true) (he : dateRegexTest e = true)
    (ent entM : RawEntity) (hent : ent.createdAt = .invalid)
    (hentM : entM.createdAt = .missing) :
    dateStrOf none = "NaN-NaN-NaN" ∧
    matchesDateFilter (.single d) none = false ∧
    matchesDateFilter (.range d e) none = false ∧
    filterByDate (.single d) ty [ent] = ([], []) ∧
    filterByDate (.range d e) ty [ent] = ([], []) ∧
    filterByDate (.single d) ty [entM] = ([], [noCreatedAtWarning ty entM]) ∧
    filterByDate (.range d e) ty [entM] = ([], [noCreatedAtWarning ty entM]) := by
  have hsingle : matchesDateFilter (.single d) none = false := nan_beq_valid_false d hd
  have hrange : matchesDateFilter (.range d e) none = false := by
    show (jsStrGe (dateStrOf none) d && jsStrLe (dateStrOf none) e) = false
    rw [nan_le_valid_false e he, Bool.and_false]
  refine ⟨rfl, hsingle, hrange, ?_, ?_, ?_, ?_⟩
  · simp [filterByDate, hent, hsingle]
  · simp [filterByDate, hent, hrange]
  · simp [filterByDate, hentM]
  · simp [filterByDate, hentM]

/-- Witness for C10 at the claim's concrete filter dates and entities. -/
theorem invalid_createdAt_never_selected_witness :
    filterByDate (.single "2005-12-17") "organization" [garbageDateOrg] = ([], []) ∧
    filterByDate (.range "2005-12-17" "2005-12-25") "organization" [garbageDateOrg] =
      ([], []) ∧
    filterByDate (.single "2005-12-17") "organization" [noDateOrg] =
      ([], [noCreatedAtWarning "organization" noDateOrg]) := by
  have h := invalid_createdAt_never_selected "2005-12-17" "2005-12-25" "organization"
    (by decide) (by decide) garbageDateOrg noDateOrg rfl rfl
  exact ⟨h.2.2.2.1, h.2.2.2.2.1, h.2.2.2.2.2.1⟩

end DeleteOrgs
